import Mathlib

/-!
# Pawa Pharmacy — shallow embedding of the stock-and-sale ledger

This file embeds, in Lean 4, the database schema and the business logic of
the pharmacy back-office application (Supabase SQL migration plus the
TypeScript mutation code of the pages) and proves or refutes the frozen
specification claims about it.

Modelling conventions:
* SQL `INTEGER` columns are `Int` (the schema has no `CHECK (quantity >= 0)`),
  `DECIMAL(10,2)` money columns are `Rat` (the arithmetic the code performs —
  integer quantity times a two-decimal price, and sums of such products —
  is exact, so `Rat` is faithful), `TEXT` is `String`, UUIDs are `Nat`
  handed out by a freshness counter.
* Each supabase call (`insert`, `update`, `select ... single()`) is one
  atomic step on the `DB` state; `AFTER INSERT` triggers run as part of the
  row-insert step, exactly as Postgres does.
* Fallible operations return `Except`; a thrown client error carries the
  database state reached so far, because the TypeScript code has no
  transaction around its successive awaits and earlier writes persist.
-/

/-- A row of `medicines` (the columns the ledger logic reads/writes):
`id`, `name`, `selling_price DECIMAL(10,2)`, `quantity INTEGER` (no CHECK
constraint, so the column itself admits negative values). -/
structure MedicineRow where
  id : Nat
  name : String
  selling_price : Rat
  quantity : Int
  deriving Repr, DecidableEq

/-- A row of `sales`: generated `sale_number` (nullable until the BEFORE
INSERT trigger fills it), optional prescription reference, `total_amount`,
`payment_method`, optional customer fields, `served_by`. -/
structure SaleRow where
  id : Nat
  sale_number : Option String
  prescription_id : Option Nat
  total_amount : Rat
  payment_method : String
  customer_name : Option String
  customer_phone : Option String
  served_by : Option String
  deriving Repr, DecidableEq

/-- A row of `sale_items`: `sale_id`, `medicine_id`, `quantity`,
`unit_price`, `total_price`. -/
structure SaleItemRow where
  sale_id : Nat
  medicine_id : Nat
  quantity : Int
  unit_price : Rat
  total_price : Rat
  deriving Repr, DecidableEq

/-- A row of `stock_movements`: medicine, movement type (`in`, `out`,
`adjustment`, `expired`), quantity, reason, optional reference to the
causing entity, acting identity. -/
structure StockMovementRow where
  medicine_id : Nat
  movement_type : String
  quantity : Int
  reason : String
  reference_id : Option Nat
  created_by : Option String
  deriving Repr, DecidableEq

/-- A row of `medicine_categories`: `name TEXT NOT NULL UNIQUE`. -/
structure CategoryRow where
  id : Nat
  name : String
  deriving Repr, DecidableEq

/-- A row of `prescriptions` (the columns the claims need):
`prescription_number TEXT UNIQUE NOT NULL` plus patient/doctor data. -/
structure PrescriptionRow where
  id : Nat
  prescription_number : String
  patient_name : String
  doctor_name : String
  created_by : Option String
  deriving Repr, DecidableEq

/-- The database state: the seven ledger tables, the `sale_number_seq`
sequence, a freshness counter standing in for `uuid_generate_v4()`, and
the current date rendered as `YYYYMMDD` (what `TO_CHAR(NOW(),'YYYYMMDD')`
returns). -/
structure DB where
  medicines : List MedicineRow
  sales : List SaleRow
  saleItems : List SaleItemRow
  stockMovements : List StockMovementRow
  categories : List CategoryRow
  prescriptions : List PrescriptionRow
  saleSeq : Nat
  nextId : Nat
  today : String
  deriving Repr, DecidableEq

/-! ## Decimal rendering and LPAD

`generate_sale_number` builds `'SALE-' || TO_CHAR(NOW(),'YYYYMMDD') || '-' ||
LPAD(NEXTVAL('sale_number_seq')::TEXT, 4, '0')`.  We model the `::TEXT`
cast of a non-negative integer by a fuel-based decimal renderer (most
significant digit first, no leading zeros except for `0` itself), and
`LPAD` by Postgres semantics: pad on the left with the fill character up
to the length, or truncate on the right when the string is already
longer. -/

/-- Decimal digits of `n`, most significant first; `fuel` bounds the
recursion (any `fuel > n` is enough). -/
def decDigitsAux : Nat → Nat → List Nat
  | 0, _ => []
  | fuel + 1, n => if n < 10 then [n] else decDigitsAux fuel (n / 10) ++ [n % 10]

/-- Decimal digits of `n`, most significant first. -/
def decDigits (n : Nat) : List Nat := decDigitsAux (n + 1) n

/-- The character of a decimal digit (`0 ↦ '0'`, …, `9 ↦ '9'`). -/
def digitChar (d : Nat) : Char := Char.ofNat (48 + d)

/-- The `::TEXT` rendering of a non-negative integer. -/
def natToDec (n : Nat) : String := ⟨(decDigits n).map digitChar⟩

/-- Postgres `LPAD(s, n, fill)`: left-pad with `fill` to length `n`, or
truncate on the right when `s` is already longer than `n`. -/
def lpad (s : String) (n : Nat) (fill : Char) : String :=
  if n ≤ s.data.length then ⟨s.data.take n⟩
  else ⟨List.replicate (n - s.data.length) fill ++ s.data⟩

/-- The `generate_sale_number` trigger body, as a function of the current
date string and the value `NEXTVAL` returned:
`'SALE-' || TO_CHAR(NOW(),'YYYYMMDD') || '-' || LPAD(seq::TEXT, 4, '0')`. -/
def generate_sale_number (today : String) (seqVal : Nat) : String :=
  "SALE-" ++ today ++ "-" ++ lpad (natToDec seqVal) 4 '0'

/-- The value of a digit list read most-significant-first. -/
def decVal (ds : List Nat) : Nat := ds.foldl (fun a d => 10 * a + d) 0

/-! ## SQL-side operations -/

/-- The `update_medicine_stock` trigger body, fired AFTER INSERT on
`sale_items` for the new row `item`:
(1) `UPDATE medicines SET quantity = quantity - NEW.quantity WHERE id =
NEW.medicine_id`; (2) `INSERT INTO stock_movements (medicine_id,
movement_type, quantity, reason, reference_id, created_by) VALUES
(NEW.medicine_id, 'out', NEW.quantity, 'Sale', NEW.sale_id, auth.uid())`.
No stock-sufficiency check is performed. -/
def update_medicine_stock (uid : Option String) (item : SaleItemRow) (db : DB) : DB :=
  let db1 : DB := { db with
    medicines := db.medicines.map (fun m =>
      if m.id = item.medicine_id then { m with quantity := m.quantity - item.quantity } else m) }
  { db1 with
    stockMovements := db1.stockMovements ++
      [⟨item.medicine_id, "out", item.quantity, "Sale", some item.sale_id, uid⟩] }

/-- Insert one row into `sale_items`; the `after_sale_item_insert` trigger
then runs `update_medicine_stock` for the row. -/
def insertSaleItem (uid : Option String) (db : DB) (item : SaleItemRow) : DB :=
  update_medicine_stock uid item { db with saleItems := db.saleItems ++ [item] }

/-- Insert one row into `sales`.  The `before_sale_insert` trigger fills
`sale_number` from `generate_sale_number` when it is null (the client never
supplies one), advancing `sale_number_seq`.  Returns the new row id. -/
def insertSale (db : DB) (s : SaleRow) : DB × Nat :=
  let seqVal := db.saleSeq + 1
  let s1 := if s.sale_number = none
    then { s with sale_number := some (generate_sale_number db.today seqVal),
                  id := db.nextId }
    else { s with id := db.nextId }
  ({ db with sales := db.sales ++ [s1], saleSeq := seqVal, nextId := db.nextId + 1 },
   db.nextId)

/-- Database errors surfaced to the client. -/
inductive DbError where
  /-- Unique-constraint violation (duplicate category name, prescription
  number, …). -/
  | uniqueViolation : DbError
  /-- `.single()` found no row. -/
  | noRows : DbError
  deriving Repr, DecidableEq

/-- Insert into `medicine_categories`: `name TEXT NOT NULL UNIQUE` — the
insert is rejected when a row with the exact same name already exists
(TEXT comparison under the default collation is case-sensitive, as is
`String` equality).  On success returns the new row id. -/
def insertCategory (db : DB) (name : String) : Except DbError (Nat × DB) :=
  if db.categories.any fun c => c.name = name then .error .uniqueViolation
  else .ok (db.nextId,
    { db with categories := db.categories ++ [⟨db.nextId, name⟩],
              nextId := db.nextId + 1 })

/-- Insert into `prescriptions`: `prescription_number TEXT UNIQUE NOT NULL`
— rejected when a row with the same number already exists.  On success
returns the new row id. -/
def insertPrescription (db : DB) (number patient doctor : String)
    (uid : Option String) : Except DbError (Nat × DB) :=
  if db.prescriptions.any fun p => p.prescription_number = number then
    .error .uniqueViolation
  else .ok (db.nextId,
    { db with prescriptions := db.prescriptions ++ [⟨db.nextId, number, patient, doctor, uid⟩],
              nextId := db.nextId + 1 })

/-! ## Client-side sale state (`Sales.tsx`) -/

/-- The `SaleItemInput` entries held in the `saleItems` React state:
medicine id, display name, quantity, and the unit price snapshotted from
the fetched medicine's `selling_price` when the line was added. -/
structure SaleItemInput where
  medicineId : Nat
  name : String
  quantity : Int
  unitPrice : Rat
  deriving Repr, DecidableEq

/-- The validated sale form values (`saleFormSchema`): optional customer
name/phone, a payment method from the closed enum, optional prescription
reference. -/
structure SaleFormValues where
  customerName : Option String
  customerPhone : Option String
  paymentMethod : String
  prescriptionId : Option Nat
  deriving Repr, DecidableEq

/-- The idiom `value?.trim() || null`: trim, and turn an absent or empty result into
SQL NULL. -/
def presentOrNull (v : Option String) : Option String :=
  match v with
  | none => none
  | some s => if s.trim = "" then none else some s.trim

/-- The handler `handleAddItem` (identical in `Sales.tsx` and the sale panel embedded
in `Prescriptions.tsx`), restricted to its state transition on the
`saleItems` list: given the fetched `medicines` snapshot, the selected
medicine id and the entered quantity, it rejects a missing selection, a
non-positive quantity, or a quantity exceeding the snapshot's on-hand
quantity (returning the list unchanged), merges into an existing line for
the same medicine when the merged quantity still fits the snapshot, and
otherwise appends a new line whose `unitPrice` snapshots the medicine's
`selling_price`. -/
def handleAddItem (medicines : List MedicineRow) (selectedMedicineId : Nat)
    (itemQuantity : Int) (prev : List SaleItemInput) : List SaleItemInput :=
  match medicines.find? (fun m => m.id = selectedMedicineId) with
  | none => prev
  | some selectedMedicine =>
    if itemQuantity ≤ 0 then prev
    else if selectedMedicine.quantity < itemQuantity then prev
    else
      match prev.find? (fun item => item.medicineId = selectedMedicine.id) with
      | some existing =>
        let newQuantity := existing.quantity + itemQuantity
        if selectedMedicine.quantity < newQuantity then prev
        else prev.map (fun item =>
          if item.medicineId = selectedMedicine.id
          then { item with quantity := newQuantity } else item)
      | none =>
        prev ++ [⟨selectedMedicine.id, selectedMedicine.name, itemQuantity,
                  selectedMedicine.selling_price⟩]

/-- Errors thrown by the sale mutation functions. -/
inductive SaleError where
  /-- "Add at least one medicine to the sale". -/
  | emptyItems : SaleError
  /-- A supabase error propagated out of an awaited call. -/
  | dbError : DbError → SaleError
  deriving Repr, DecidableEq

/-- The total `items.reduce((sum, item) => sum + item.quantity * item.unitPrice, 0)`. -/
def saleTotal (items : List SaleItemInput) : Rat :=
  items.foldl (fun sum item => sum + item.quantity * item.unitPrice) 0

/-- The `sale_items` insert payload built by both sale mutations:
`items.map(item => ({sale_id, medicine_id, quantity, unit_price,
total_price: quantity * unit_price}))`. -/
def saleItemsPayload (saleId : Nat) (items : List SaleItemInput) : List SaleItemRow :=
  items.map (fun item =>
    ⟨saleId, item.medicineId, item.quantity, item.unitPrice,
     item.quantity * item.unitPrice⟩)

/-- The function `saleMutation.mutationFn` of `Sales.tsx`: reject an empty item list;
compute the total; insert the `sales` header (the BEFORE INSERT trigger
assigns the sale number); insert all `sale_items` rows (each firing the
stock trigger).  No stock-sufficiency check is performed here, and the
successive awaits are not wrapped in a transaction. -/
def saleMutation (uid : Option String) (formValues : SaleFormValues)
    (items : List SaleItemInput) (db : DB) : Except SaleError (Nat × DB) :=
  if items = [] then .error .emptyItems
  else
    let total := saleTotal items
    let (db1, saleId) := insertSale db
      { id := 0, sale_number := none,
        prescription_id := formValues.prescriptionId,
        total_amount := total,
        payment_method := formValues.paymentMethod,
        customer_name := presentOrNull formValues.customerName,
        customer_phone := presentOrNull formValues.customerPhone,
        served_by := uid }
    let db2 := (saleItemsPayload saleId items).foldl (insertSaleItem uid) db1
    .ok (saleId, db2)

/-! ## The sale mutation embedded in `Prescriptions.tsx`

The second `Sales` component (inside `Prescriptions.tsx`) repeats the same
mutation and then, for each item, re-reads the medicine's quantity and
writes `Math.max(0, quantity - item.quantity)` back — on top of the
decrement the `after_sale_item_insert` trigger has already applied. -/

/-- One iteration of the `for (const item of items)` loop: `select
quantity ... .single()` (fails with no row), then `update({quantity:
Math.max(0, (quantity ?? 0) - item.quantity)})`.  An error aborts the
loop but does not undo the writes already made, so the error carries the
state reached. -/
def rxStockStep (db : DB) (item : SaleItemInput) : Except (SaleError × DB) DB :=
  match db.medicines.find? (fun m => m.id = item.medicineId) with
  | none => .error (.dbError .noRows, db)
  | some medicineRecord =>
    let nextQuantity : Int := max 0 (medicineRecord.quantity - item.quantity)
    .ok { db with
      medicines := db.medicines.map (fun m =>
        if m.id = item.medicineId then { m with quantity := nextQuantity } else m) }

/-- The whole follow-up loop, item by item. -/
def rxStockLoop (items : List SaleItemInput) (db : DB) : Except (SaleError × DB) DB :=
  items.foldlM rxStockStep db

/-- The function `saleMutation.mutationFn` of the sale panel embedded in
`Prescriptions.tsx`: identical to the `Sales.tsx` version, followed by the
explicit per-item quantity rewrite loop. -/
def saleMutationRx (uid : Option String) (formValues : SaleFormValues)
    (items : List SaleItemInput) (db : DB) : Except (SaleError × DB) (Nat × DB) :=
  if items = [] then .error (.emptyItems, db)
  else
    let total := saleTotal items
    let (db1, saleId) := insertSale db
      { id := 0, sale_number := none,
        prescription_id := formValues.prescriptionId,
        total_amount := total,
        payment_method := formValues.paymentMethod,
        customer_name := presentOrNull formValues.customerName,
        customer_phone := presentOrNull formValues.customerPhone,
        served_by := uid }
    let db2 := (saleItemsPayload saleId items).foldl (insertSaleItem uid) db1
    match rxStockLoop items db2 with
    | .error e => .error e
    | .ok db3 => .ok (saleId, db3)

/-- The per-row effect of one iteration of the explicit quantity-rewrite
loop on the medicine row it targets (under unique ids): the row for the
item's medicine gets `max 0 (quantity - item.quantity)`, others are
untouched. -/
def rxStepFun (item : SaleItemInput) (m : MedicineRow) : MedicineRow :=
  if m.id = item.medicineId then
    { m with quantity := max 0 (m.quantity - item.quantity) } else m

/-- The total quantity the inserted `sale_items` rows carry for one
medicine id (what the triggers subtract from that medicine in sum). -/
def sumQtyRow (rows : List SaleItemRow) (id : Nat) : Int :=
  ((rows.filter (fun r => r.medicine_id = id)).map (fun r => r.quantity)).sum

/-- The generator `generatePrescriptionNumber` of `Prescriptions.tsx`:
``` `RX-${date}-${Math.floor(Math.random() * 900 + 100)}` ```
as a function of the date string (`toISOString` date with dashes removed,
i.e. `YYYYMMDD`) and the random draw; `Math.floor(Math.random() * 900)`
is an arbitrary integer in `[0, 900)`, modelled as `r % 900`. -/
def generatePrescriptionNumber (today : String) (r : Nat) : String :=
  "RX-" ++ today ++ "-" ++ natToDec (r % 900 + 100)

/-! ## Medicine catalogue form (`MedicineFormDialog` in the inventory page) -/

/-- The medicine form values after react-hook-form coercion
(`medicineFormSchema`'s field set). -/
structure MedicineFormValues where
  name : String
  genericName : Option String
  categoryId : Option Nat
  newCategoryName : Option String
  supplierId : Option Nat
  batchNumber : String
  unitPrice : Rat
  sellingPrice : Rat
  quantity : Int
  reorderLevel : Int
  expiryDate : String
  manufactureDate : Option String
  requiresPrescription : Bool
  deriving Repr, DecidableEq

/-- The schema `medicineFormSchema` of the inventory page, as the predicate the
zod resolver checks before the submit handler may run:
`name: z.string().min(2)`, `batchNumber: z.string().min(1)`,
`unitPrice: z.coerce.number().min(0)`, `sellingPrice:
z.coerce.number().min(0)`, `quantity: z.coerce.number().int().min(0)`,
`reorderLevel: z.coerce.number().int().min(0)`,
`expiryDate: z.string().min(1)` (the integrality of `quantity` and
`reorderLevel` is carried by their `Int` type here). -/
def medicineFormSchemaCheck (v : MedicineFormValues) : Bool :=
  2 ≤ v.name.length
  && 1 ≤ v.batchNumber.length
  && 0 ≤ v.unitPrice
  && 0 ≤ v.sellingPrice
  && 0 ≤ v.quantity
  && 0 ≤ v.reorderLevel
  && 1 ≤ v.expiryDate.length

/-- A stored `medicines` row extended with the catalogue columns the
upsert writes (beyond the ledger columns of `MedicineRow`); faithful to
the insert/update payload built by `upsertMutation`. -/
structure MedicinePayload where
  name : String
  generic_name : Option String
  category_id : Option Nat
  supplier_id : Option Nat
  batch_number : String
  unit_price : Rat
  selling_price : Rat
  quantity : Int
  reorder_level : Int
  expiry_date : String
  manufacture_date : Option String
  requires_prescription : Bool
  deriving Repr, DecidableEq

/-- The payload object `upsertMutation` builds from the form values
(trimming the text fields and null-ing absent optionals). -/
def buildMedicinePayload (v : MedicineFormValues) (categoryId : Option Nat) :
    MedicinePayload :=
  { name := v.name.trim
    generic_name := presentOrNull v.genericName
    category_id := categoryId
    supplier_id := v.supplierId
    batch_number := v.batchNumber.trim
    unit_price := v.unitPrice
    selling_price := v.sellingPrice
    quantity := v.quantity
    reorder_level := v.reorderLevel
    expiry_date := v.expiryDate
    manufacture_date := presentOrNull v.manufactureDate
    requires_prescription := v.requiresPrescription }

/-- The catalogue table as the upsert sees it: full rows keyed by id. -/
structure CatalogueDB where
  rows : List (Nat × MedicinePayload)
  categories : List CategoryRow
  nextId : Nat
  deriving Repr, DecidableEq

/-- Category creation as the application performs it (the
`medicine_categories` insert inside `upsertMutation`, governed by the
table's `UNIQUE` name constraint): rejected with a unique violation when
a row with the exact same name exists, otherwise inserts and returns the
new id. -/
def createCategory (cdb : CatalogueDB) (name : String) :
    Except DbError (Nat × CatalogueDB) :=
  if cdb.categories.any (fun c => c.name = name) then .error .uniqueViolation
  else .ok (cdb.nextId,
    { cdb with categories := cdb.categories ++ [⟨cdb.nextId, name⟩],
               nextId := cdb.nextId + 1 })

/-- The function `upsertMutation.mutationFn`: optionally create the ad-hoc category
(when no category is selected and a new name was typed), then either
`update ... eq(id)` the existing row (edit mode) or `insert` a new row,
returning the row id. -/
def upsertMutationFn (cdb : CatalogueDB) (initialData : Option Nat)
    (v : MedicineFormValues) : Except DbError (Nat × CatalogueDB) := do
  let (categoryId, cdb1) ←
    match v.categoryId with
    | some cid => pure (some cid, cdb)
    | none =>
      match presentOrNull v.newCategoryName with
      | some trimmedName => do
        let (newId, cdb') ← createCategory cdb trimmedName
        pure (some newId, cdb')
      | none => pure (none, cdb)
  let payload := buildMedicinePayload v categoryId
  match initialData with
  | some medId =>
    pure (medId,
      { cdb1 with rows := cdb1.rows.map (fun r =>
          if r.1 = medId then (r.1, payload) else r) })
  | none =>
    pure (cdb1.nextId,
      { cdb1 with rows := cdb1.rows ++ [(cdb1.nextId, payload)],
                  nextId := cdb1.nextId + 1 })

/-- The whole submit path for the medicine form: the zod resolver
validates first (`form.handleSubmit(onSubmit)` only calls `onSubmit`, and
hence the mutation, when `medicineFormSchema` accepts), so invalid values
are rejected before any persistence attempt. -/
def upsertMedicine (cdb : CatalogueDB) (initialData : Option Nat)
    (v : MedicineFormValues) : Except (Option DbError) (Nat × CatalogueDB) :=
  if medicineFormSchemaCheck v then
    match upsertMutationFn cdb initialData v with
    | .ok r => .ok r
    | .error e => .error (some e)
  else .error none

/-! ## Concrete fixtures used by the claim theorems -/

/-- A catalogue holding one medicine, Paracetamol: on-hand quantity 5,
selling price 10. -/
def paracetamolDB : DB :=
  { medicines := [⟨1, "Paracetamol", 10, 5⟩], sales := [], saleItems := [],
    stockMovements := [], categories := [], prescriptions := [],
    saleSeq := 0, nextId := 2, today := "20251005" }

/-- A catalogue holding one medicine, Amoxicillin: on-hand quantity 20,
selling price 50 (the spec's walk-through scenario). -/
def amoxicillinDB : DB :=
  { medicines := [⟨1, "Amoxicillin", 50, 20⟩], sales := [], saleItems := [],
    stockMovements := [], categories := [], prescriptions := [],
    saleSeq := 0, nextId := 2, today := "20251005" }

/-- A cash sale with no customer details and no prescription link. -/
def cashSale : SaleFormValues := ⟨none, none, "cash", none⟩

/-! ## Claim theorems -/

/-- C1: the claim says a `recordSale` call containing a line item whose
quantity exceeds the medicine's current on-hand quantity is rejected with
no persisted state.  The code does the opposite: `saleMutation` performs
no stock check at all, so selling 7 units of a medicine holding 5 commits
the sale header, the line item and the stock movement, and drives the
stored quantity to −2.  This theorem evaluates the embedded mutation at
that failing input. -/
theorem saleMutation_commits_oversale :
    (saleMutation (some "staff") cashSale [⟨1, "Paracetamol", 7, 10⟩]
        paracetamolDB).toOption.map
      (fun r => (r.2.sales.length, r.2.saleItems.length,
                 r.2.stockMovements.length,
                 r.2.medicines.map (fun m => m.quantity)))
      = some (1, 1, 1, [-2]) := by decide

/-- C2: the claim says the stored quantity is never negative and an
operation that would drive it below zero fails.  The schema has no
non-negativity constraint and `update_medicine_stock` decrements
unconditionally: selling 6 units of a medicine holding 5 succeeds and
persists quantity −1. -/
theorem saleMutation_persists_negative_quantity :
    (saleMutation (some "staff") cashSale [⟨1, "Paracetamol", 6, 10⟩]
        paracetamolDB).toOption.map
      (fun r => r.2.medicines.map (fun m => m.quantity)) = some [-1]
    ∧ (-1 : Int) < 0 := by decide

/-- C3: the claim says that of two concurrent sales of 3 units against a
stock of 5 exactly one succeeds, the final quantity is 2 and the check is
re-validated inside the committing transaction.  In the code the only
check is `handleAddItem`'s client-side comparison against the fetched
snapshot; `saleMutation` re-checks nothing.  With both clients holding
the same snapshot (quantity 5), both pre-checks admit 3 units, both
commits succeed, and the final quantity is −1 with two sale rows. -/
theorem concurrent_sales_both_commit :
    handleAddItem paracetamolDB.medicines 1 3 [] = [⟨1, "Paracetamol", 3, 10⟩]
    ∧ ((saleMutation (some "staffA") cashSale [⟨1, "Paracetamol", 3, 10⟩]
          paracetamolDB).toOption.bind
        (fun r =>
          (saleMutation (some "staffB") cashSale [⟨1, "Paracetamol", 3, 10⟩]
              r.2).toOption.map
            (fun r2 => (r2.2.sales.length, r2.2.medicines.map (fun m => m.quantity)))))
      = some (2, [-1]) := by decide

/-- C6 (counterexample): the claim says the stock movement recorded for a
sale line carries a signed delta equal to the negative of the line
quantity (−5 for a sale of 5 units).  In the spec's Amoxicillin scenario
the trigger records `NEW.quantity` — the positive 5 — with kind `out`,
and 5 ≠ −5. -/
theorem stock_movement_quantity_is_positive :
    (saleMutation (some "staff") cashSale [⟨1, "Amoxicillin", 5, 50⟩]
        amoxicillinDB).toOption.map
      (fun r => r.2.stockMovements.map (fun mv => (mv.movement_type, mv.quantity)))
      = some [("out", 5)]
    ∧ ¬ ((5 : Int) = -5) := by decide

/-- C6 (amended): for every sale line item inserted, exactly one stock
movement is appended, for the line's medicine, with movement kind `out`,
recorded quantity equal to the (positive) line quantity, reason `Sale`,
reference to the owning sale, and the acting identity. -/
theorem insertSaleItem_appends_one_out_movement (uid : Option String)
    (db : DB) (item : SaleItemRow) :
    (insertSaleItem uid db item).stockMovements
      = db.stockMovements ++
        [⟨item.medicine_id, "out", item.quantity, "Sale", some item.sale_id, uid⟩]
    ∧ (insertSaleItem uid db item).saleItems = db.saleItems ++ [item] := by
  constructor <;> simp [insertSaleItem, update_medicine_stock]

/-- C8: creating a category whose exact (case-sensitively compared) name
already exists fails with a unique violation: after a first
`createCategory name` on a catalogue without that name, the second call
fails and exactly one category row with that name exists. -/
theorem createCategory_rejects_duplicate (cdb : CatalogueDB) (name : String)
    (h : (cdb.categories.any fun c => c.name = name) = false) :
    ∃ id cdb', createCategory cdb name = .ok (id, cdb')
      ∧ createCategory cdb' name = .error .uniqueViolation
      ∧ (cdb'.categories.filter fun c => c.name = name).length = 1 := by
  refine ⟨cdb.nextId,
    { cdb with categories := cdb.categories ++ [⟨cdb.nextId, name⟩],
               nextId := cdb.nextId + 1 }, ?_, ?_, ?_⟩
  · simp [createCategory, h]
  · simp [createCategory]
  · have hnil : (cdb.categories.filter fun c => c.name = name) = [] := by
      simp only [List.any_eq_false] at h
      simp only [List.filter_eq_nil_iff]
      intro a ha
      simpa using h a ha
    simp [List.filter_append, hnil]

/-- Witness for `createCategory_rejects_duplicate`: the spec's
`Antibiotics` scenario against an empty catalogue. -/
theorem createCategory_rejects_duplicate_witness :
    ∃ id cdb', createCategory ⟨[], [], 1⟩ "Antibiotics" = .ok (id, cdb')
      ∧ createCategory cdb' "Antibiotics" = .error .uniqueViolation
      ∧ (cdb'.categories.filter fun c => c.name = "Antibiotics").length = 1 :=
  createCategory_rejects_duplicate ⟨[], [], 1⟩ "Antibiotics" (by decide)

/-- C9: the medicine form is validated by the zod schema before the
mutation may run, so a negative unit price, selling price, quantity or
reorder level, or an empty expiry date, is rejected with no persistence
attempt; on schema-valid input (with any ad-hoc category either not
requested or fresh) the mutation creates or updates the catalogue row
and returns its id. -/
theorem upsertMedicine_validates_before_persisting (cdb : CatalogueDB)
    (initialData : Option Nat) (v : MedicineFormValues) :
    (v.unitPrice < 0 ∨ v.sellingPrice < 0 ∨ v.quantity < 0 ∨ v.reorderLevel < 0
        ∨ v.expiryDate = "" →
      upsertMedicine cdb initialData v = .error none)
    ∧ (medicineFormSchemaCheck v = true →
       (∀ t, v.categoryId = none → presentOrNull v.newCategoryName = some t →
          (cdb.categories.any fun c => c.name = t) = false) →
       ∃ id cat cdb', upsertMedicine cdb initialData v = .ok (id, cdb')
        ∧ (match initialData with
           | some mid => id = mid ∧ cdb'.rows = cdb.rows.map (fun r =>
               if r.1 = mid then (r.1, buildMedicinePayload v cat) else r)
           | none => cdb'.rows = cdb.rows ++ [(id, buildMedicinePayload v cat)])) := by
  constructor
  · intro h
    have hc : medicineFormSchemaCheck v = false := by
      unfold medicineFormSchemaCheck
      rcases h with h|h|h|h|h
      · simp [not_le.mpr h]
      · simp [not_le.mpr h]
      · simp [not_le.mpr h]
      · simp [not_le.mpr h]
      · simp [h]
    simp [upsertMedicine, hc]
  · intro hv hfresh
    cases hcid : v.categoryId with
    | some cid =>
      cases initialData with
      | some mid =>
        refine ⟨mid, some cid,
          { cdb with rows := cdb.rows.map (fun r =>
              if r.1 = mid then (r.1, buildMedicinePayload v (some cid)) else r) }, ?_, ?_⟩
        · simp [upsertMedicine, hv, upsertMutationFn, hcid, pure, Except.pure, bind, Except.bind]
        · exact ⟨rfl, rfl⟩
      | none =>
        refine ⟨cdb.nextId, some cid,
          { cdb with rows := cdb.rows ++ [(cdb.nextId, buildMedicinePayload v (some cid))],
                     nextId := cdb.nextId + 1 }, ?_, ?_⟩
        · simp [upsertMedicine, hv, upsertMutationFn, hcid, pure, Except.pure, bind, Except.bind]
        · rfl
    | none =>
      cases hpn : presentOrNull v.newCategoryName with
      | some t =>
        have hfr := hfresh t hcid hpn
        cases initialData with
        | some mid =>
          refine ⟨mid, some cdb.nextId,
            { cdb with categories := cdb.categories ++ [⟨cdb.nextId, t⟩],
                       nextId := cdb.nextId + 1,
                       rows := cdb.rows.map (fun r =>
                         if r.1 = mid then (r.1, buildMedicinePayload v (some cdb.nextId)) else r) },
            ?_, ?_⟩
          · simp [upsertMedicine, hv, upsertMutationFn, hcid, hpn, createCategory, hfr, pure, Except.pure, bind, Except.bind]
          · exact ⟨rfl, rfl⟩
        | none =>
          refine ⟨cdb.nextId + 1, some cdb.nextId,
            { cdb with categories := cdb.categories ++ [⟨cdb.nextId, t⟩],
                       rows := cdb.rows ++ [(cdb.nextId + 1, buildMedicinePayload v (some cdb.nextId))],
                       nextId := cdb.nextId + 2 }, ?_, ?_⟩
          · simp [upsertMedicine, hv, upsertMutationFn, hcid, hpn, createCategory, hfr, pure, Except.pure, bind, Except.bind]
          · rfl
      | none =>
        cases initialData with
        | some mid =>
          refine ⟨mid, none,
            { cdb with rows := cdb.rows.map (fun r =>
                if r.1 = mid then (r.1, buildMedicinePayload v none) else r) }, ?_, ?_⟩
          · simp [upsertMedicine, hv, upsertMutationFn, hcid, hpn, pure, Except.pure, bind, Except.bind]
          · exact ⟨rfl, rfl⟩
        | none =>
          refine ⟨cdb.nextId, none,
            { cdb with rows := cdb.rows ++ [(cdb.nextId, buildMedicinePayload v none)],
                       nextId := cdb.nextId + 1 }, ?_, ?_⟩
          · simp [upsertMedicine, hv, upsertMutationFn, hcid, hpn, pure, Except.pure, bind, Except.bind]
          · rfl

/-- Witness for `upsertMedicine_validates_before_persisting`: a form with
selling price −5 is rejected before persisting, and a valid Amoxicillin
form is inserted into an empty catalogue. -/
theorem upsertMedicine_validates_witness :
    upsertMedicine ⟨[], [], 1⟩ none
      ⟨"Amoxicillin", none, none, none, none, "B-1", 10, -5, 0, 0, "2026-01-01", none, false⟩
      = .error none
    ∧ ∃ id cat cdb',
        upsertMedicine ⟨[], [], 1⟩ none
          ⟨"Amoxicillin", none, none, none, none, "B-1", 10, 50, 20, 10, "2026-01-01", none, false⟩
          = .ok (id, cdb')
        ∧ cdb'.rows = [] ++ [(id, buildMedicinePayload
            ⟨"Amoxicillin", none, none, none, none, "B-1", 10, 50, 20, 10, "2026-01-01", none, false⟩
            cat)] :=
  ⟨(upsertMedicine_validates_before_persisting ⟨[], [], 1⟩ none _).1
      (Or.inr (Or.inl (by decide))),
   (upsertMedicine_validates_before_persisting ⟨[], [], 1⟩ none _).2
      (by decide) (by intro t _ h; simp [presentOrNull] at h)⟩

/-- Folding the `sale_items` insert over a row list appends exactly those
rows to `sale_items` and leaves `sales` untouched (the stock trigger only
writes `medicines` and `stock_movements`). -/
theorem foldl_insertSaleItem_tables (uid : Option String) :
    ∀ (rows : List SaleItemRow) (db : DB),
      ((rows.foldl (insertSaleItem uid) db).saleItems = db.saleItems ++ rows)
      ∧ ((rows.foldl (insertSaleItem uid) db).sales = db.sales) := by
  intro rows
  induction rows with
  | nil => intro db; simp
  | cons r rest ih =>
    intro db
    have h := ih (insertSaleItem uid db r)
    constructor
    · rw [List.foldl_cons, h.1]
      simp [insertSaleItem, update_medicine_stock]
    · rw [List.foldl_cons, h.2]
      simp [insertSaleItem, update_medicine_stock]

/-- The client's reduce-computed total is the sum of quantity times
snapshot unit price over the items. -/
theorem saleTotal_eq_sum (items : List SaleItemInput) :
    saleTotal items = (items.map (fun it => (it.quantity : Rat) * it.unitPrice)).sum := by
  suffices h : ∀ (l : List SaleItemInput) (a : Rat),
      l.foldl (fun sum item => sum + (item.quantity : Rat) * item.unitPrice) a
        = a + (l.map (fun it => (it.quantity : Rat) * it.unitPrice)).sum by
    simpa [saleTotal] using h items 0
  intro l
  induction l with
  | nil => intro a; simp
  | cons x xs ih =>
    intro a
    rw [List.foldl_cons, ih]
    simp [add_assoc]

/-- C4: every sale created by `saleMutation` consists of one new `sales`
row and exactly the payload `sale_items` rows, the new row's
`total_amount` equals the sum over those line items of quantity times
unit price, and each line's stored `unit_price` is exactly the
`unitPrice` snapshotted in the cart (which `handleAddItem` set from the
fetched medicine's `selling_price` when the line was added — the final
conjunct — and which is never recomputed afterwards). -/
theorem saleMutation_total_is_sum_of_lines (uid : Option String)
    (fv : SaleFormValues) (items : List SaleItemInput) (db : DB)
    (sid : Nat) (db' : DB)
    (hok : saleMutation uid fv items db = .ok (sid, db')) :
    (∃ s, db'.sales = db.sales ++ [s]
      ∧ db'.saleItems = db.saleItems ++ saleItemsPayload sid items
      ∧ s.total_amount
          = ((saleItemsPayload sid items).map
              (fun r => (r.quantity : Rat) * r.unit_price)).sum
      ∧ (saleItemsPayload sid items).map (fun r => r.unit_price)
          = items.map (fun it => it.unitPrice))
    ∧ ∀ (meds : List MedicineRow) (sel : Nat) (q : Int) (prev : List SaleItemInput),
        (∀ it ∈ prev, ∃ m ∈ meds, it.medicineId = m.id ∧ it.unitPrice = m.selling_price) →
        ∀ it ∈ handleAddItem meds sel q prev,
          ∃ m ∈ meds, it.medicineId = m.id ∧ it.unitPrice = m.selling_price := by
  constructor
  · simp only [saleMutation] at hok
    split at hok
    · exact absurd hok (by simp)
    · simp only [Except.ok.injEq, Prod.mk.injEq] at hok
      obtain ⟨hsid, hdb⟩ := hok
      subst hsid hdb
      have hf := foldl_insertSaleItem_tables uid (saleItemsPayload db.nextId items)
        ((insertSale db
          { id := 0, sale_number := none,
            prescription_id := fv.prescriptionId,
            total_amount := saleTotal items,
            payment_method := fv.paymentMethod,
            customer_name := presentOrNull fv.customerName,
            customer_phone := presentOrNull fv.customerPhone,
            served_by := uid }).1)
      rw [show (insertSale db
          { id := 0, sale_number := none,
            prescription_id := fv.prescriptionId,
            total_amount := saleTotal items,
            payment_method := fv.paymentMethod,
            customer_name := presentOrNull fv.customerName,
            customer_phone := presentOrNull fv.customerPhone,
            served_by := uid }).2 = db.nextId from rfl]
      refine ⟨{ id := db.nextId,
                sale_number := some (generate_sale_number db.today (db.saleSeq + 1)),
                prescription_id := fv.prescriptionId,
                total_amount := saleTotal items,
                payment_method := fv.paymentMethod,
                customer_name := presentOrNull fv.customerName,
                customer_phone := presentOrNull fv.customerPhone,
                served_by := uid }, ?_, ?_, ?_, ?_⟩
      · rw [hf.2]
        simp [insertSale]
      · rw [hf.1]
        simp [insertSale]
      · show saleTotal items = _
        rw [saleTotal_eq_sum, saleItemsPayload, List.map_map]
        rfl
      · rw [saleItemsPayload, List.map_map]
        rfl
  · intro meds sel q prev hp it hit
    unfold handleAddItem at hit
    cases hfind : meds.find? (fun m => m.id = sel) with
    | none => rw [hfind] at hit; exact hp it hit
    | some med =>
      rw [hfind] at hit
      have hmed : med ∈ meds := List.mem_of_find?_eq_some hfind
      by_cases h1 : q ≤ 0
      · simp only [h1, if_true] at hit; exact hp it hit
      · simp only [h1, if_false] at hit
        by_cases h2 : med.quantity < q
        · simp only [h2, if_true] at hit; exact hp it hit
        · simp only [h2, if_false] at hit
          cases hex : prev.find? (fun item => item.medicineId = med.id) with
          | some existing =>
            rw [hex] at hit
            by_cases h3 : med.quantity < existing.quantity + q
            · simp only [h3, if_true] at hit; exact hp it hit
            · simp only [h3, if_false] at hit
              obtain ⟨orig, horig, heq⟩ := List.mem_map.mp hit
              have hid : it.medicineId = orig.medicineId := by
                rw [← heq]
                by_cases h4 : orig.medicineId = med.id <;> simp [h4]
              have hup : it.unitPrice = orig.unitPrice := by
                rw [← heq]
                by_cases h4 : orig.medicineId = med.id <;> simp [h4]
              obtain ⟨m, hm, hid', hup'⟩ := hp orig horig
              exact ⟨m, hm, hid.trans hid', hup.trans hup'⟩
          | none =>
            rw [hex] at hit
            rcases List.mem_append.mp hit with hin | hnew
            · exact hp it hin
            · simp only [List.mem_singleton] at hnew
              subst hnew
              exact ⟨med, hmed, rfl, rfl⟩


/-- The Amoxicillin walk-through evaluated: selling 5 units at 50 out of
a stock of 20 commits one sale with total 250, one line item, one `out`
movement of 5, and leaves quantity 15. -/
theorem amoxicillinSaleEval :
    saleMutation (some "staff") cashSale [⟨1, "Amoxicillin", 5, 50⟩] amoxicillinDB
      = .ok (2, { medicines := [⟨1, "Amoxicillin", 50, 15⟩],
                  sales := [⟨2, some "SALE-20251005-0001", none, 250, "cash", none, none,
                             some "staff"⟩],
                  saleItems := [⟨2, 1, 5, 50, 250⟩],
                  stockMovements := [⟨1, "out", 5, "Sale", some 2, some "staff"⟩],
                  categories := [], prescriptions := [],
                  saleSeq := 1, nextId := 3, today := "20251005" }) := by
  have h : saleMutation (some "staff") cashSale [⟨1, "Amoxicillin", 5, 50⟩] amoxicillinDB
      = .ok (2, { medicines := [⟨1, "Amoxicillin", 50, 15⟩],
                  sales := [⟨2, some "SALE-20251005-0001", none,
                             saleTotal [⟨1, "Amoxicillin", 5, 50⟩], "cash", none, none,
                             some "staff"⟩],
                  saleItems := [⟨2, 1, 5, 50, ((5 : Int) : Rat) * 50⟩],
                  stockMovements := [⟨1, "out", 5, "Sale", some 2, some "staff"⟩],
                  categories := [], prescriptions := [],
                  saleSeq := 1, nextId := 3, today := "20251005" }) := by rfl
  have e1 : saleTotal [(⟨1, "Amoxicillin", 5, 50⟩ : SaleItemInput)] = 250 := by
    unfold saleTotal
    norm_num
  have e2 : ((5 : Int) : Rat) * 50 = 250 := by norm_num
  rw [h, e1, e2]

/-- Witness for `saleMutation_total_is_sum_of_lines`: the spec's
Amoxicillin scenario — quantity 20, selling price 50, a sale of 5 units
producing `total_amount` 250. -/
theorem saleMutation_total_witness :
    (∃ s, ({ medicines := [⟨1, "Amoxicillin", 50, 15⟩],
             sales := [⟨2, some "SALE-20251005-0001", none, 250, "cash", none, none,
                        some "staff"⟩],
             saleItems := [⟨2, 1, 5, 50, 250⟩],
             stockMovements := [⟨1, "out", 5, "Sale", some 2, some "staff"⟩],
             categories := [], prescriptions := [],
             saleSeq := 1, nextId := 3, today := "20251005" } : DB).sales
          = amoxicillinDB.sales ++ [s]
      ∧ ({ medicines := [⟨1, "Amoxicillin", 50, 15⟩],
           sales := [⟨2, some "SALE-20251005-0001", none, 250, "cash", none, none,
                      some "staff"⟩],
           saleItems := [⟨2, 1, 5, 50, 250⟩],
           stockMovements := [⟨1, "out", 5, "Sale", some 2, some "staff"⟩],
           categories := [], prescriptions := [],
           saleSeq := 1, nextId := 3, today := "20251005" } : DB).saleItems
          = amoxicillinDB.saleItems ++ saleItemsPayload 2 [⟨1, "Amoxicillin", 5, 50⟩]
      ∧ s.total_amount
          = ((saleItemsPayload 2 [⟨1, "Amoxicillin", 5, 50⟩]).map
              (fun r => (r.quantity : Rat) * r.unit_price)).sum
      ∧ (saleItemsPayload 2 [⟨1, "Amoxicillin", 5, 50⟩]).map (fun r => r.unit_price)
          = [⟨1, "Amoxicillin", 5, 50⟩].map (fun it : SaleItemInput => it.unitPrice))
    ∧ ∀ (meds : List MedicineRow) (sel : Nat) (q : Int) (prev : List SaleItemInput),
        (∀ it ∈ prev, ∃ m ∈ meds, it.medicineId = m.id ∧ it.unitPrice = m.selling_price) →
        ∀ it ∈ handleAddItem meds sel q prev,
          ∃ m ∈ meds, it.medicineId = m.id ∧ it.unitPrice = m.selling_price :=
  saleMutation_total_is_sum_of_lines (some "staff") cashSale
    [⟨1, "Amoxicillin", 5, 50⟩] amoxicillinDB 2
    { medicines := [⟨1, "Amoxicillin", 50, 15⟩],
      sales := [⟨2, some "SALE-20251005-0001", none, 250, "cash", none, none,
                 some "staff"⟩],
      saleItems := [⟨2, 1, 5, 50, 250⟩],
      stockMovements := [⟨1, "out", 5, "Sale", some 2, some "staff"⟩],
      categories := [], prescriptions := [],
      saleSeq := 1, nextId := 3, today := "20251005" } amoxicillinSaleEval

/-! ## Sale-number digits: lemmas for the identifier-generator claim -/

/-- Appending a final digit multiplies the value by ten and adds it. -/
theorem decVal_append_digit (ds : List Nat) (d : Nat) :
    decVal (ds ++ [d]) = 10 * decVal ds + d := by
  unfold decVal
  rw [List.foldl_append]
  rfl

/-- With enough fuel, the rendered digits evaluate back to the number. -/
theorem decVal_decDigitsAux : ∀ (f n : Nat), n < f → decVal (decDigitsAux f n) = n := by
  intro f
  induction f with
  | zero => intro n h; exact absurd h (Nat.not_lt_zero n)
  | succ f ih =>
    intro n h
    rw [decDigitsAux]
    by_cases h10 : n < 10
    · rw [if_pos h10]
      simp [decVal]
    · have hn : n / 10 < n := Nat.div_lt_self (by omega) (by omega)
      rw [if_neg h10, decVal_append_digit, ih (n / 10) (by omega)]
      omega

/-- The digits of `n` evaluate back to `n`. -/
theorem decVal_decDigits (n : Nat) : decVal (decDigits n) = n :=
  decVal_decDigitsAux (n + 1) n (Nat.lt_succ_self n)

/-- Leading zeros do not change the value of a digit list. -/
theorem decVal_replicate_zero (k : Nat) (ds : List Nat) :
    decVal (List.replicate k 0 ++ ds) = decVal ds := by
  induction k with
  | zero => simp
  | succ k ih => simpa [decVal, List.replicate_succ] using ih

/-- Every rendered digit is below ten. -/
theorem decDigitsAux_lt_ten : ∀ (f n : Nat), ∀ d ∈ decDigitsAux f n, d < 10 := by
  intro f
  induction f with
  | zero => intro n d hd; simp [decDigitsAux] at hd
  | succ f ih =>
    intro n d hd
    rw [decDigitsAux] at hd
    by_cases h10 : n < 10
    · rw [if_pos h10] at hd
      simp at hd
      omega
    · rw [if_neg h10] at hd
      rcases List.mem_append.mp hd with h | h
      · exact ih _ _ h
      · simp at h
        omega

/-- A number below `10 ^ k` renders to at most `k` digits. -/
theorem decDigitsAux_length_le :
    ∀ (f n k : Nat), n < f → n < 10 ^ k → 1 ≤ k → (decDigitsAux f n).length ≤ k := by
  intro f
  induction f with
  | zero => intro n k h; omega
  | succ f ih =>
    intro n k h hk h1
    rw [decDigitsAux]
    by_cases h10 : n < 10
    · rw [if_pos h10]
      simpa using h1
    · rw [if_neg h10]
      have hn : n / 10 < n := Nat.div_lt_self (by omega) (by omega)
      have hk2 : 2 ≤ k := by
        by_contra hc
        have hk1 : k = 1 := by omega
        subst hk1
        simp [pow_one] at hk
        omega
      have hpow : 10 ^ k = 10 ^ (k - 1) * 10 := by
        conv_lhs => rw [show k = (k - 1) + 1 by omega]
        rw [pow_succ]
      have hdiv : n / 10 < 10 ^ (k - 1) := by
        rw [hpow] at hk
        omega
      have := ih (n / 10) (k - 1) (by omega) hdiv (by omega)
      simp [List.length_append]
      omega

/-- A number at least `10 ^ k` renders to more than `k` digits. -/
theorem decDigitsAux_length_ge :
    ∀ (f n k : Nat), n < f → 10 ^ k ≤ n → k + 1 ≤ (decDigitsAux f n).length := by
  intro f
  induction f with
  | zero => intro n k h; omega
  | succ f ih =>
    intro n k h hk
    rw [decDigitsAux]
    by_cases h10 : n < 10
    · rw [if_pos h10]
      have hk0 : k = 0 := by
        by_contra hc
        have h2 : 10 ≤ 10 ^ k := by
          calc (10 : Nat) = 10 ^ 1 := (pow_one 10).symm
          _ ≤ 10 ^ k := Nat.pow_le_pow_right (by omega) (by omega)
        omega
      subst hk0
      simp
    · rw [if_neg h10]
      simp only [List.length_append, List.length_cons, List.length_nil]
      by_cases hk0 : k = 0
      · subst hk0
        omega
      · have hn : n / 10 < n := Nat.div_lt_self (by omega) (by omega)
        have hpow : 10 ^ k = 10 ^ (k - 1) * 10 := by
          conv_lhs => rw [show k = (k - 1) + 1 by omega]
          rw [pow_succ]
        have hge : 10 ^ (k - 1) ≤ n / 10 := by
          rw [hpow] at hk
          omega
        have := ih (n / 10) (k - 1) (by omega) hge
        omega

/-- Digit characters lie in the ASCII range of '0'..'9'. -/
theorem digit_char_bound :
    ∀ a, a < 10 → 48 ≤ (digitChar a).toNat ∧ (digitChar a).toNat ≤ 57 := by decide

/-- Digit characters of digits below ten are distinct. -/
theorem digitChar_inj : ∀ a, a < 10 → ∀ b, b < 10 →
    digitChar a = digitChar b → a = b := by decide

/-- Rendering digit lists to characters is injective on digit lists. -/
theorem map_digitChar_inj :
    ∀ (l1 l2 : List Nat), (∀ d ∈ l1, d < 10) → (∀ d ∈ l2, d < 10) →
      l1.map digitChar = l2.map digitChar → l1 = l2 := by
  intro l1
  induction l1 with
  | nil =>
    intro l2 _ _ h
    cases l2 with
    | nil => rfl
    | cons b t => simp at h
  | cons a l ih =>
    intro l2 h1 h2 h
    cases l2 with
    | nil => simp at h
    | cons b t =>
      simp only [List.map_cons, List.cons.injEq] at h
      have ha : a < 10 := h1 a (by simp)
      have hb : b < 10 := h2 b (by simp)
      have hab : a = b := digitChar_inj a ha b hb h.1
      subst hab
      rw [ih t (fun d hd => h1 d (by simp [hd])) (fun d hd => h2 d (by simp [hd])) h.2]

/-- For numbers of at most four digits, `LPAD(n::TEXT, 4, '0')` is the
zero-padded digit rendering with no truncation. -/
theorem lpad_natToDec_data (n : Nat) (h4 : (decDigits n).length ≤ 4) :
    (lpad (natToDec n) 4 '0').data
      = (List.replicate (4 - (decDigits n).length) 0 ++ decDigits n).map digitChar := by
  unfold lpad natToDec
  by_cases h : 4 ≤ ((decDigits n).map digitChar).length
  · have he : (decDigits n).length = 4 := by
      simp only [List.length_map] at h
      omega
    rw [if_pos (by simpa using h)]
    simp [List.take_of_length_le, he]
  · rw [if_neg (by simpa using h)]
    have hz : digitChar 0 = '0' := by decide
    simp [List.map_append, List.map_replicate, hz]

/-- C5 (amended): every generated sale number has the shape
`SALE-<date>-NNNN` with a sequence component of exactly four characters,
all decimal digits; and two calls with distinct sequence values both
below 10000 on the same date yield distinct strings.  (For sequence
values of five or more digits `LPAD` truncates on the right, so
distinctness over the lifetime of the store fails — see the
counterexample.) -/
theorem generate_sale_number_spec :
    (∀ (d : String) (n : Nat), ∃ s : String,
        generate_sale_number d n = "SALE-" ++ d ++ "-" ++ s
        ∧ s.length = 4
        ∧ ∀ c ∈ s.data, 48 ≤ c.toNat ∧ c.toNat ≤ 57)
    ∧ ∀ (d : String) (n₁ n₂ : Nat), n₁ ≠ n₂ → n₁ < 10000 → n₂ < 10000 →
        generate_sale_number d n₁ ≠ generate_sale_number d n₂ := by
  constructor
  · intro d n
    refine ⟨lpad (natToDec n) 4 '0', rfl, ?_, ?_⟩
    · show (lpad (natToDec n) 4 '0').data.length = 4
      unfold lpad natToDec
      by_cases h : 4 ≤ ((decDigits n).map digitChar).length
      · rw [if_pos (by simpa using h)]
        simp only [List.length_map] at h
        simp [List.length_take]
        omega
      · rw [if_neg (by simpa using h)]
        simp only [List.length_map] at h
        simp [List.length_append, List.length_replicate]
        omega
    · intro c hc
      unfold lpad natToDec at hc
      by_cases h : 4 ≤ ((decDigits n).map digitChar).length
      · rw [if_pos (by simpa using h)] at hc
        have hmem : c ∈ (decDigits n).map digitChar := List.mem_of_mem_take hc
        obtain ⟨d0, hd0, rfl⟩ := List.mem_map.mp hmem
        exact digit_char_bound d0 (decDigitsAux_lt_ten _ _ d0 hd0)
      · rw [if_neg (by simpa using h)] at hc
        rcases List.mem_append.mp hc with h0 | hm
        · have hcz : c = '0' := List.eq_of_mem_replicate h0
          subst hcz
          decide
        · obtain ⟨d0, hd0, rfl⟩ := List.mem_map.mp hm
          exact digit_char_bound d0 (decDigitsAux_lt_ten _ _ d0 hd0)
  · intro d n₁ n₂ hne h1 h2 heq
    apply hne
    have hlen1 : (decDigits n₁).length ≤ 4 :=
      decDigitsAux_length_le (n₁ + 1) n₁ 4 (Nat.lt_succ_self n₁) (by omega) (by omega)
    have hlen2 : (decDigits n₂).length ≤ 4 :=
      decDigitsAux_length_le (n₂ + 1) n₂ 4 (Nat.lt_succ_self n₂) (by omega) (by omega)
    have hdata := congrArg String.data heq
    simp only [generate_sale_number, String.data_append] at hdata
    have hsuffix : (lpad (natToDec n₁) 4 '0').data = (lpad (natToDec n₂) 4 '0').data := by
      exact List.append_cancel_left hdata
    rw [lpad_natToDec_data n₁ hlen1, lpad_natToDec_data n₂ hlen2] at hsuffix
    have hall1 : ∀ x ∈ List.replicate (4 - (decDigits n₁).length) 0 ++ decDigits n₁, x < 10 := by
      intro x hx
      rcases List.mem_append.mp hx with h0 | hm
      · have := List.eq_of_mem_replicate h0
        omega
      · exact decDigitsAux_lt_ten _ _ x hm
    have hall2 : ∀ x ∈ List.replicate (4 - (decDigits n₂).length) 0 ++ decDigits n₂, x < 10 := by
      intro x hx
      rcases List.mem_append.mp hx with h0 | hm
      · have := List.eq_of_mem_replicate h0
        omega
      · exact decDigitsAux_lt_ten _ _ x hm
    have hlists := map_digitChar_inj _ _ hall1 hall2 hsuffix
    have hvals := congrArg decVal hlists
    rw [decVal_replicate_zero, decVal_replicate_zero, decVal_decDigits, decVal_decDigits] at hvals
    exact hvals

/-- C5 (counterexample): the claim as stated — all distinct generator
calls yield distinct strings for the lifetime of the store — is false:
`NEXTVAL` values 1000 and 10000 on the same date both render to
`SALE-20251005-1000`, because `LPAD(..., 4, '0')` truncates `10000` to
its first four characters. -/
theorem generate_sale_number_collision :
    generate_sale_number "20251005" 1000 = generate_sale_number "20251005" 10000
    ∧ (1000 : Nat) ≠ 10000 := by
  constructor
  · rfl
  · decide

/-- Witness for `generate_sale_number_spec`: sequence values 7 and 12 on
the same date give a well-formed pair of distinct sale numbers. -/
theorem generate_sale_number_spec_witness :
    (∃ s : String, generate_sale_number "20251005" 7 = "SALE-" ++ "20251005" ++ "-" ++ s
        ∧ s.length = 4 ∧ ∀ c ∈ s.data, 48 ≤ c.toNat ∧ c.toNat ≤ 57)
    ∧ generate_sale_number "20251005" 7 ≠ generate_sale_number "20251005" 12 :=
  ⟨generate_sale_number_spec.1 "20251005" 7,
   generate_sale_number_spec.2 "20251005" 7 12 (by decide) (by decide) (by decide)⟩

/-- C7 (counterexample): the claim says the generator-supplied
prescription number is guaranteed unique across all prior and future
calls.  `generatePrescriptionNumber` appends a random three-digit
component (`Math.floor(Math.random() * 900 + 100)`); nothing prevents two
calls from drawing the same value, so no draw sequence makes the call
index map injective — the constant draw 7 repeats `RX-20251005-107`
on every call. -/
theorem prescription_generator_not_unique :
    ¬ ∀ draws : Nat → Nat, Function.Injective
        (fun i => generatePrescriptionNumber "20251005" (draws i)) := by
  intro h
  have hinj := h (fun _ => 7)
  have h01 : (0 : Nat) = 1 := hinj rfl
  exact absurd h01 (by decide)

/-- C7 (amended): recording a prescription fails with a unique violation
whenever the supplied number already exists (the `prescription_number`
UNIQUE constraint); when the caller supplies no number, the form is
pre-filled by the generator with a string of the shape `RX-<date>-NNN`
with exactly three decimal digits — a random component that may repeat
across calls, uniqueness being enforced only by the insert-time
constraint. -/
theorem recordPrescription_unique_number :
    (∀ (db : DB) (num pat doc : String) (uid : Option String),
        (∃ p ∈ db.prescriptions, p.prescription_number = num) →
        insertPrescription db num pat doc uid = .error .uniqueViolation)
    ∧ ∀ (d : String) (r : Nat), ∃ s : String,
        generatePrescriptionNumber d r = "RX-" ++ d ++ "-" ++ s
        ∧ s.length = 3 ∧ ∀ c ∈ s.data, 48 ≤ c.toNat ∧ c.toNat ≤ 57 := by
  constructor
  · intro db num pat doc uid hex
    obtain ⟨p, hp, hnum⟩ := hex
    have hany : (db.prescriptions.any fun q => q.prescription_number = num) = true :=
      List.any_eq_true.mpr ⟨p, hp, by simp [hnum]⟩
    simp [insertPrescription, hany]
  · intro d r
    refine ⟨natToDec (r % 900 + 100), rfl, ?_, ?_⟩
    · have hm1 : r % 900 + 100 < 10 ^ 3 := by
        have : r % 900 < 900 := Nat.mod_lt r (by omega)
        simp [pow_succ]
        omega
      have hm2 : 10 ^ 2 ≤ r % 900 + 100 := by
        simp [pow_succ]
      have hle : (decDigits (r % 900 + 100)).length ≤ 3 :=
        decDigitsAux_length_le _ _ 3 (Nat.lt_succ_self _) hm1 (by omega)
      have hge : 2 + 1 ≤ (decDigits (r % 900 + 100)).length :=
        decDigitsAux_length_ge _ _ 2 (Nat.lt_succ_self _) hm2
      show (natToDec (r % 900 + 100)).data.length = 3
      unfold natToDec
      simp only [List.length_map]
      omega
    · intro c hc
      unfold natToDec at hc
      obtain ⟨d0, hd0, rfl⟩ := List.mem_map.mp hc
      exact digit_char_bound d0 (decDigitsAux_lt_ten _ _ d0 hd0)

/-- Witness for `recordPrescription_unique_number`: inserting a second
prescription with an existing number fails, and draw 7 produces a
well-formed generated number. -/
theorem recordPrescription_witness :
    insertPrescription
      { medicines := [], sales := [], saleItems := [], stockMovements := [],
        categories := [],
        prescriptions := [⟨1, "RX-20251005-100", "Alice", "Dr. Brown", none⟩],
        saleSeq := 0, nextId := 2, today := "20251005" }
      "RX-20251005-100" "Carol" "Dr. Davis" none
      = .error .uniqueViolation
    ∧ ∃ s : String, generatePrescriptionNumber "20251005" 7 = "RX-" ++ "20251005" ++ "-" ++ s
        ∧ s.length = 3 ∧ ∀ c ∈ s.data, 48 ≤ c.toNat ∧ c.toNat ≤ 57 :=
  ⟨recordPrescription_unique_number.1 _ "RX-20251005-100" "Carol" "Dr. Davis" none
      ⟨⟨1, "RX-20251005-100", "Alice", "Dr. Brown", none⟩, by simp, rfl⟩,
   recordPrescription_unique_number.2 "20251005" 7⟩

/-! ## The double decrement in the Prescriptions-page sale mutation -/

/-- Unfolding of the per-medicine quantity carried by a row list. -/
theorem sumQtyRow_cons (r : SaleItemRow) (rest : List SaleItemRow) (i : Nat) :
    sumQtyRow (r :: rest) i
      = (if r.medicine_id = i then r.quantity else 0) + sumQtyRow rest i := by
  unfold sumQtyRow
  rw [List.filter_cons]
  by_cases h : r.medicine_id = i
  · simp [h]
  · simp [h]

/-- The trigger phase: inserting all payload rows leaves each medicine
with its quantity reduced by the total payload quantity for its id. -/
theorem foldl_insertSaleItem_medicines (uid : Option String) :
    ∀ (rows : List SaleItemRow) (db : DB),
      (rows.foldl (insertSaleItem uid) db).medicines
        = db.medicines.map (fun m =>
            { m with quantity := m.quantity - sumQtyRow rows m.id }) := by
  intro rows
  induction rows with
  | nil =>
    intro db
    have he : (fun m : MedicineRow =>
        { m with quantity := m.quantity - sumQtyRow [] m.id }) = id := by
      funext m
      simp [sumQtyRow]
    rw [List.foldl_nil, he, List.map_id]
  | cons r rest ih =>
    intro db
    rw [List.foldl_cons, ih]
    have hmed : (insertSaleItem uid db r).medicines
        = db.medicines.map (fun m =>
            if m.id = r.medicine_id then { m with quantity := m.quantity - r.quantity }
            else m) := by
      simp [insertSaleItem, update_medicine_stock]
    rw [hmed, List.map_map]
    apply List.map_congr_left
    intro m _
    simp only [Function.comp]
    by_cases h : m.id = r.medicine_id
    · rw [if_pos h]
      simp [sumQtyRow_cons, h.symm, sub_sub]
    · rw [if_neg h]
      have h2 : ¬ (r.medicine_id = m.id) := fun hc => h hc.symm
      simp [sumQtyRow_cons, h2]

/-- The explicit rewrite step never changes a row's id. -/
theorem rxStepFun_id (item : SaleItemInput) (m : MedicineRow) :
    (rxStepFun item m).id = m.id := by
  unfold rxStepFun
  split <;> rfl

/-- A payload whose items all target other medicines carries nothing for
this id. -/
theorem sumQtyRow_payload_zero (sid : Nat) (i : Nat) :
    ∀ (items : List SaleItemInput), (∀ j ∈ items, j.medicineId ≠ i) →
      sumQtyRow (saleItemsPayload sid items) i = 0 := by
  intro items
  induction items with
  | nil => intro _; simp [saleItemsPayload, sumQtyRow]
  | cons j rest ih =>
    intro h
    show sumQtyRow (⟨sid, j.medicineId, j.quantity, j.unitPrice,
        j.quantity * j.unitPrice⟩ :: saleItemsPayload sid rest) i = 0
    rw [sumQtyRow_cons]
    have hj : j.medicineId ≠ i := h j (by simp)
    rw [if_neg hj, ih (fun x hx => h x (by simp [hx]))]
    simp

/-- With pairwise-distinct item medicine ids, the payload carries exactly
the item's quantity for the item's medicine. -/
theorem sumQtyRow_payload (sid : Nat) :
    ∀ (items : List SaleItemInput) (it : SaleItemInput),
      (items.map (fun x => x.medicineId)).Nodup → it ∈ items →
      sumQtyRow (saleItemsPayload sid items) it.medicineId = it.quantity := by
  intro items
  induction items with
  | nil => intro it _ h; simp at h
  | cons j rest ih =>
    intro it hnd hmem
    have hnd' := hnd
    simp only [List.map_cons, List.nodup_cons] at hnd'
    obtain ⟨hnotin, hndrest⟩ := hnd'
    show sumQtyRow (⟨sid, j.medicineId, j.quantity, j.unitPrice,
        j.quantity * j.unitPrice⟩ :: saleItemsPayload sid rest) it.medicineId = it.quantity
    rw [sumQtyRow_cons]
    rcases List.mem_cons.mp hmem with heq | hrest
    · subst heq
      rw [if_pos rfl]
      rw [sumQtyRow_payload_zero sid it.medicineId rest
        (fun x hx hc => hnotin (hc ▸ List.mem_map_of_mem (fun y => y.medicineId) hx))]
      simp
    · have hne : j.medicineId ≠ it.medicineId := by
        intro hc
        exact hnotin (hc ▸ List.mem_map_of_mem (fun y => y.medicineId) hrest)
      rw [if_neg hne, ih it hndrest hrest]
      simp

/-- One successful loop iteration rewrites the medicines table row-wise:
the targeted id gets `max 0 (quantity - item.quantity)` (the re-read row
is the unique row with that id), everything else is unchanged. -/
theorem rxStockStep_medicines (db : DB) (item : SaleItemInput) (db2 : DB)
    (hnd : (db.medicines.map (fun m => m.id)).Nodup)
    (hok : rxStockStep db item = .ok db2) :
    db2.medicines = db.medicines.map (rxStepFun item) := by
  unfold rxStockStep at hok
  cases hfind : db.medicines.find? (fun m => m.id = item.medicineId) with
  | none => rw [hfind] at hok; exact absurd hok (by simp)
  | some medicineRecord =>
    rw [hfind] at hok
    simp only [Except.ok.injEq] at hok
    subst hok
    show db.medicines.map _ = db.medicines.map (rxStepFun item)
    apply List.map_congr_left
    intro m hm
    by_cases h : m.id = item.medicineId
    · have hrecmem : medicineRecord ∈ db.medicines := List.mem_of_find?_eq_some hfind
      have hrecid : medicineRecord.id = item.medicineId := by
        have := List.find?_some hfind
        simpa using this
      have : medicineRecord = m :=
        List.inj_on_of_nodup_map hnd hrecmem hm (by rw [hrecid, h])
      subst this
      rw [if_pos h]
      unfold rxStepFun
      rw [if_pos h]
    · rw [if_neg h]
      unfold rxStepFun
      rw [if_neg h]

/-- The rewrite step preserves the id column. -/
theorem map_rxStepFun_ids (item : SaleItemInput) (l : List MedicineRow) :
    (l.map (rxStepFun item)).map (fun m => m.id) = l.map (fun m => m.id) := by
  rw [List.map_map]
  apply List.map_congr_left
  intro m _
  simp [Function.comp, rxStepFun_id]

/-- A successful run of the whole follow-up loop folds the per-item
row rewrites over the medicines table. -/
theorem rxStockLoop_medicines :
    ∀ (items : List SaleItemInput) (db db2 : DB),
      (db.medicines.map (fun m => m.id)).Nodup →
      rxStockLoop items db = .ok db2 →
      db2.medicines = items.foldl (fun l j => l.map (rxStepFun j)) db.medicines := by
  intro items
  induction items with
  | nil =>
    intro db db2 _ hok
    simp only [rxStockLoop, List.foldlM_nil] at hok
    simp only [pure, Except.pure, Except.ok.injEq] at hok
    rw [← hok]
    rfl
  | cons j rest ih =>
    intro db db2 hnd hok
    simp only [rxStockLoop, List.foldlM_cons] at hok
    cases hstep : rxStockStep db j with
    | error e =>
      rw [hstep] at hok
      simp [bind, Except.bind] at hok
    | ok dbj =>
      rw [hstep] at hok
      simp only [bind, Except.bind] at hok
      have hmed := rxStockStep_medicines db j dbj hnd hstep
      have hnd2 : (dbj.medicines.map (fun m => m.id)).Nodup := by
        rw [hmed, map_rxStepFun_ids]
        exact hnd
      have := ih dbj db2 hnd2 hok
      rw [this, hmed]
      rfl

/-- Folding list-wide rewrites is the row-wise fold of the rewrites. -/
theorem foldl_map_rxStepFun :
    ∀ (items : List SaleItemInput) (l : List MedicineRow),
      items.foldl (fun acc j => acc.map (rxStepFun j)) l
        = l.map (fun m => items.foldl (fun x j => rxStepFun j x) m) := by
  intro items
  induction items with
  | nil =>
    intro l
    simp
  | cons j rest ih =>
    intro l
    rw [List.foldl_cons, ih, List.map_map]
    rfl

/-- Items targeting other medicines leave a row unchanged. -/
theorem foldl_rxStepFun_skip :
    ∀ (items : List SaleItemInput) (x : MedicineRow),
      (∀ j ∈ items, j.medicineId ≠ x.id) →
      items.foldl (fun x j => rxStepFun j x) x = x := by
  intro items
  induction items with
  | nil => intro x _; rfl
  | cons j rest ih =>
    intro x h
    rw [List.foldl_cons]
    have hx : rxStepFun j x = x := by
      unfold rxStepFun
      rw [if_neg (fun hc => h j (by simp) hc.symm)]
    rw [hx, ih x (fun y hy => h y (by simp [hy]))]

/-- With pairwise-distinct item ids, a row is rewritten exactly once, by
its own item. -/
theorem foldl_rxStepFun_single :
    ∀ (items : List SaleItemInput) (it : SaleItemInput) (x : MedicineRow),
      (items.map (fun i => i.medicineId)).Nodup → it ∈ items →
      x.id = it.medicineId →
      items.foldl (fun x j => rxStepFun j x) x = rxStepFun it x := by
  intro items
  induction items with
  | nil => intro it x _ h; simp at h
  | cons j rest ih =>
    intro it x hnd hmem hx
    simp only [List.map_cons, List.nodup_cons] at hnd
    obtain ⟨hnotin, hndrest⟩ := hnd
    rw [List.foldl_cons]
    rcases List.mem_cons.mp hmem with heq | hrest
    · subst heq
      apply foldl_rxStepFun_skip
      intro y hy hc
      rw [rxStepFun_id, hx] at hc
      exact hnotin (hc ▸ List.mem_map_of_mem (fun i => i.medicineId) hy)
    · have hne : j.medicineId ≠ it.medicineId := by
        intro hc
        exact hnotin (hc ▸ List.mem_map_of_mem (fun i => i.medicineId) hrest)
      have hxj : rxStepFun j x = x := by
        unfold rxStepFun
        rw [if_neg (fun hc => hne (by rw [← hc]; exact hx))]
      rw [hxj]
      exact ih it x hndrest hrest hx

/-- C10: in the sale mutation embedded in `Prescriptions.tsx`, a
successful sale decrements each sold medicine twice: the
`after_sale_item_insert` trigger subtracts the line quantity once
(possibly below zero), and the explicit follow-up update then writes
`max 0 (re-read quantity - line quantity)` — so the final stored quantity
is `max 0 ((q - k) - k)`, the explicit path itself never stores a
negative value, and any shortfall is silently absorbed by the clamp
rather than failing. -/
theorem saleMutationRx_double_decrement (uid : Option String)
    (fv : SaleFormValues) (items : List SaleItemInput) (db : DB)
    (sid : Nat) (db' : DB)
    (hitems : (items.map (fun it => it.medicineId)).Nodup)
    (hdb : (db.medicines.map (fun m => m.id)).Nodup)
    (hok : saleMutationRx uid fv items db = .ok (sid, db')) :
    ∀ it ∈ items, ∀ m ∈ db.medicines, m.id = it.medicineId →
      ({ m with quantity := max 0 ((m.quantity - it.quantity) - it.quantity) } ∈ db'.medicines
        ∧ 0 ≤ max 0 ((m.quantity - it.quantity) - it.quantity)) := by
  intro it hit m hm hid
  simp only [saleMutationRx] at hok
  split at hok
  · exact absurd hok (by simp)
  · rw [show (insertSale db
        { id := 0, sale_number := none,
          prescription_id := fv.prescriptionId,
          total_amount := saleTotal items,
          payment_method := fv.paymentMethod,
          customer_name := presentOrNull fv.customerName,
          customer_phone := presentOrNull fv.customerPhone,
          served_by := uid }).2 = db.nextId from rfl] at hok
    cases hloop : rxStockLoop items
        ((saleItemsPayload db.nextId items).foldl (insertSaleItem uid)
          (insertSale db
            { id := 0, sale_number := none,
              prescription_id := fv.prescriptionId,
              total_amount := saleTotal items,
              payment_method := fv.paymentMethod,
              customer_name := presentOrNull fv.customerName,
              customer_phone := presentOrNull fv.customerPhone,
              served_by := uid }).1) with
    | error e =>
      rw [hloop] at hok
      exact absurd hok (by simp)
    | ok db3 =>
      rw [hloop] at hok
      simp only [Except.ok.injEq, Prod.mk.injEq] at hok
      obtain ⟨hsid, hdb'⟩ := hok
      subst hdb'
      have hmed2 : ((saleItemsPayload db.nextId items).foldl (insertSaleItem uid)
          (insertSale db
            { id := 0, sale_number := none,
              prescription_id := fv.prescriptionId,
              total_amount := saleTotal items,
              payment_method := fv.paymentMethod,
              customer_name := presentOrNull fv.customerName,
              customer_phone := presentOrNull fv.customerPhone,
              served_by := uid }).1).medicines
          = db.medicines.map (fun x => { x with quantity := (x.quantity
              - sumQtyRow (saleItemsPayload db.nextId items) x.id) }) := by
        rw [foldl_insertSaleItem_medicines]
        rfl
      have hnd2 : (((saleItemsPayload db.nextId items).foldl (insertSaleItem uid)
          (insertSale db
            { id := 0, sale_number := none,
              prescription_id := fv.prescriptionId,
              total_amount := saleTotal items,
              payment_method := fv.paymentMethod,
              customer_name := presentOrNull fv.customerName,
              customer_phone := presentOrNull fv.customerPhone,
              served_by := uid }).1).medicines.map (fun x => x.id)).Nodup := by
        rw [hmed2, List.map_map]
        have hcomp : ((fun x : MedicineRow => x.id) ∘ (fun x : MedicineRow =>
            { x with quantity := (x.quantity
                - sumQtyRow (saleItemsPayload db.nextId items) x.id) }))
            = fun x : MedicineRow => x.id := by
          funext x
          rfl
        rw [hcomp]
        exact hdb
      have hm3 := rxStockLoop_medicines items _ db3 hnd2 hloop
      rw [hm3, hmed2, foldl_map_rxStepFun, List.map_map]
      have himg : ((fun x => items.foldl (fun y j => rxStepFun j y) x) ∘
          (fun x : MedicineRow => { x with quantity := (x.quantity
              - sumQtyRow (saleItemsPayload db.nextId items) x.id) })) m
          = { m with quantity := max 0 ((m.quantity - it.quantity) - it.quantity) } := by
        simp only [Function.comp]
        have hsum : sumQtyRow (saleItemsPayload db.nextId items) m.id = it.quantity := by
          rw [hid]
          exact sumQtyRow_payload db.nextId items it hitems hit
        rw [hsum]
        have hxid : ({ m with quantity := m.quantity - it.quantity } : MedicineRow).id
            = it.medicineId := hid
        rw [foldl_rxStepFun_single items it _ hitems hit hxid]
        unfold rxStepFun
        rw [if_pos hxid]
      constructor
      · rw [← himg]
        exact List.mem_map_of_mem _ hm
      · exact le_max_left 0 _

/-- A concrete run of the Prescriptions-page mutation: selling 3 units of
a medicine holding 5 ends with stored quantity `max 0 ((5-3)-3) = 0`,
not 2. -/
theorem rxSaleEval :
    saleMutationRx (some "staff") cashSale [⟨1, "Paracetamol", 3, 10⟩] paracetamolDB
      = .ok (2, { medicines := [⟨1, "Paracetamol", 10, 0⟩],
                  sales := [⟨2, some "SALE-20251005-0001", none, 30, "cash", none, none,
                             some "staff"⟩],
                  saleItems := [⟨2, 1, 3, 10, 30⟩],
                  stockMovements := [⟨1, "out", 3, "Sale", some 2, some "staff"⟩],
                  categories := [], prescriptions := [],
                  saleSeq := 1, nextId := 3, today := "20251005" }) := by
  have h : saleMutationRx (some "staff") cashSale [⟨1, "Paracetamol", 3, 10⟩] paracetamolDB
      = .ok (2, { medicines := [⟨1, "Paracetamol", 10, max 0 ((5 - 3 : Int) - 3)⟩],
                  sales := [⟨2, some "SALE-20251005-0001", none,
                             saleTotal [⟨1, "Paracetamol", 3, 10⟩], "cash", none, none,
                             some "staff"⟩],
                  saleItems := [⟨2, 1, 3, 10, ((3 : Int) : Rat) * 10⟩],
                  stockMovements := [⟨1, "out", 3, "Sale", some 2, some "staff"⟩],
                  categories := [], prescriptions := [],
                  saleSeq := 1, nextId := 3, today := "20251005" }) := by rfl
  have e1 : saleTotal [(⟨1, "Paracetamol", 3, 10⟩ : SaleItemInput)] = 30 := by
    unfold saleTotal
    norm_num
  have e2 : ((3 : Int) : Rat) * 10 = 30 := by norm_num
  have e3 : max 0 ((5 - 3 : Int) - 3) = 0 := by decide
  rw [h, e1, e2, e3]

/-- Witness for `saleMutationRx_double_decrement`: the 3-of-5 sale above.
-/
theorem saleMutationRx_double_decrement_witness :
    ((⟨1, "Paracetamol", 10, max 0 (((5 : Int) - 3) - 3)⟩ : MedicineRow)
        ∈ [(⟨1, "Paracetamol", 10, 0⟩ : MedicineRow)]
      ∧ (0 : Int) ≤ max 0 (((5 : Int) - 3) - 3)) :=
  saleMutationRx_double_decrement (some "staff") cashSale
    [⟨1, "Paracetamol", 3, 10⟩] paracetamolDB 2
    { medicines := [⟨1, "Paracetamol", 10, 0⟩],
      sales := [⟨2, some "SALE-20251005-0001", none, 30, "cash", none, none,
                 some "staff"⟩],
      saleItems := [⟨2, 1, 3, 10, 30⟩],
      stockMovements := [⟨1, "out", 3, "Sale", some 2, some "staff"⟩],
      categories := [], prescriptions := [],
      saleSeq := 1, nextId := 3, today := "20251005" }
    (by decide) (by decide) rxSaleEval
    ⟨1, "Paracetamol", 3, 10⟩ (List.mem_singleton_self _)
    ⟨1, "Paracetamol", 10, 5⟩ (List.mem_singleton_self _) rfl
